import Mathlib

/-!
# Verification of the gochronos scheduler (src/gochronos.go)

Shallow embedding of the gochronos time-scheduling library.

Time model: a Go `time.Time` instant is modelled as `Int`, the number of
nanoseconds since the Unix epoch.  Go's zero `Time` (January 1 of year 1,
UTC) is the sentinel `goZeroTimeNs`; `IsZero`, `Before`, `After`, `Sub`,
`Unix` are modelled on this representation.  `time.Duration` values and Go
`int`/`int64` arithmetic wrap at 64 bits, modelled by `wrap64`; `Time.Sub`
saturates at the `Duration` bounds, modelled by `timeSub`.  `time.Unix(sec,0)`
and `Time.Add` are modelled as exact integer arithmetic (their own internal
64-bit overflow lies far outside every value considered here).

A Go function that can panic is modelled as returning `Option`/`Except`,
with `none`/`.error` standing for the panic.  The "none" sentinel that
`GetNextExec` returns for "no further execution" is the zero time, i.e.
`some goZeroTimeNs` — distinct from a panic.
-/

namespace Gochronos

/-- Go's zero `time.Time` (0001-01-01T00:00:00Z) in Unix nanoseconds:
-62135596800 seconds before the epoch. -/
def goZeroTimeNs : Int := -62135596800000000000

/-- `t.IsZero()`. -/
def timeIsZero (t : Int) : Bool := t == goZeroTimeNs

/-- `a.Before(b)`: strict comparison of instants. -/
def timeBefore (a b : Int) : Bool := decide (a < b)

/-- `a.After(b)`: strict comparison of instants. -/
def timeAfter (a b : Int) : Bool := decide (b < a)

def int64Max : Int := 9223372036854775807

def int64Min : Int := -9223372036854775808

/-- Two's-complement wrap-around of Go 64-bit integer arithmetic. -/
def wrap64 (x : Int) : Int :=
  (x + 9223372036854775808).emod 18446744073709551616 - 9223372036854775808

/-- `a.Sub(b)`: the difference in nanoseconds, saturated at the
`time.Duration` (int64) bounds as `time.Time.Sub` documents. -/
def timeSub (a b : Int) : Int :=
  if int64Max < a - b then int64Max
  else if a - b < int64Min then int64Min
  else a - b

/-- `t.Unix()`: whole seconds since the epoch (floor, since the internal
nanosecond field lies in `[0, 1e9)`). -/
def timeUnix (t : Int) : Int := Int.fdiv t 1000000000

/-- `time.Unix(sec, 0)`: the instant `sec` whole seconds from the epoch. -/
def timeUnixSec (sec : Int) : Int := sec * 1000000000

def FREQ_SECOND : Int := 1
def FREQ_MINUTE : Int := 2
def FREQ_HOUR : Int := 3
def FREQ_DAY : Int := 4
def FREQ_WEEK : Int := 5
def FREQ_MONTH : Int := 6
def FREQ_YEAR : Int := 7

/-- The `TimeSpec` struct: `when` is the one-off instant; the remaining
fields drive recurring specifications. -/
structure TimeSpec where
  recurring : Bool
  when : Int
  startTime : Int
  endTime : Int
  frequency : Int
  interval : Int
  maxNum : Int
deriving DecidableEq, Repr

/-- `NewOneOff(t)`: only `recurring` and `when` are set; the other fields
keep their Go zero values (`time.Time{}`, `0`). -/
def NewOneOff (t : Int) : TimeSpec :=
  { recurring := false, when := t, startTime := goZeroTimeNs,
    endTime := goZeroTimeNs, frequency := 0, interval := 0, maxNum := 0 }

/-- `(*TimeSpec).GetNextExec`, with `now` (which the Go method reads from
`time.Now()`) passed explicitly.  `Option.none` models the run-time panic
(`%` by zero when `period` collapses to 0); `some goZeroTimeNs` is the
spec's "none" sentinel (the zero time). -/
def TimeSpec.GetNextExec (t : TimeSpec) (now : Int) : Option Int :=
  if t.recurring then
    -- if termination condition is met, return zero time
    if !timeIsZero t.endTime && timeBefore t.endTime now then
      some goZeroTimeNs
    -- if start time is in the future, return that
    else if timeAfter t.startTime now then
      some t.startTime
    else
      -- determine period in seconds (the switch on t.frequency)
      let period0 : Int :=
        if t.frequency = FREQ_SECOND then 1
        else if t.frequency = FREQ_MINUTE then 60
        else if t.frequency = FREQ_HOUR then 3600
        else if t.frequency = FREQ_DAY then 86400
        else if t.frequency = FREQ_WEEK then 604800
        else 0
      if 0 < period0 then
        -- period *= t.interval (Go int multiplication wraps at 64 bits)
        let period := wrap64 (period0 * t.interval)
        if period = 0 then none  -- td := ... % period would panic in Go
        else
          -- delta := now.Sub(t.startTime)
          let delta := timeSub now t.startTime
          -- td := int(delta*time.Second) % period   (NOT delta/time.Second:
          -- the source multiplies the nanosecond count by 1e9, wrapping)
          let td := Int.tmod (wrap64 (delta * 1000000000)) period
          -- prev := time.Unix(now.Unix()-int64(td), 0)
          let prev := timeUnixSec (wrap64 (timeUnix now - td))
          -- next := prev.Add(time.Duration(period) * time.Second)
          some (prev + wrap64 (period * 1000000000))
      else
        -- month/year switch is empty; fall through to the zero time
        some goZeroTimeNs
  else
    if timeBefore t.when now then some goZeroTimeNs
    else some t.when

/-- A value stored in the `map[string]interface{}` configuration: the code
only ever asserts `time.Time` or `int`, so those two dynamic types are
modelled; an assertion against the other variant panics. -/
inductive ConfigVal where
  | timeV (t : Int)
  | intV (n : Int)
deriving DecidableEq, Repr

/-- Whether the type assertion performed for key `k` (if any) succeeds on
value `v`: `starttime`/`endtime` assert `time.Time`, `frequency`/`interval`/
`maxnum` assert `int`, every other key is ignored by the switch. -/
def keyWellTyped : String → ConfigVal → Bool
  | "starttime", .timeV _ => true
  | "starttime", .intV _ => false
  | "frequency", .intV _ => true
  | "frequency", .timeV _ => false
  | "interval", .intV _ => true
  | "interval", .timeV _ => false
  | "endtime", .timeV _ => true
  | "endtime", .intV _ => false
  | "maxnum", .intV _ => true
  | "maxnum", .timeV _ => false
  | _, _ => true

/-- The field update the switch performs for a well-typed entry; an
unrecognized key leaves the record unchanged. -/
def updEntry (r : TimeSpec) : String → ConfigVal → TimeSpec
  | "starttime", .timeV t => { r with startTime := t }
  | "frequency", .intV n => { r with frequency := n }
  | "interval", .intV n => { r with interval := n }
  | "endtime", .timeV t => { r with endTime := t }
  | "maxnum", .intV n => { r with maxNum := n }
  | _, _ => r

/-- One iteration of the `for k, v := range config` loop: a failed type
assertion is a panic (`.error`). -/
def applyEntry (r : TimeSpec) (k : String) (v : ConfigVal) : Except String TimeSpec :=
  if keyWellTyped k v then .ok (updEntry r k v)
  else .error "interface conversion panic"

/-- The whole `range config` loop.  (Go iterates the map in unspecified
order; a map has no repeated key, and for such lists the outcome below is
order-independent, each key writing its own field.) -/
def configFold (r : TimeSpec) : List (String × ConfigVal) → Except String TimeSpec
  | [] => .ok r
  | (k, v) :: rest =>
    match applyEntry r k v with
    | .ok r' => configFold r' rest
    | .error e => .error e

/-- The literal `result` initializer of `NewRecurring`. -/
def newRecurringInit : TimeSpec :=
  { recurring := true, when := goZeroTimeNs, startTime := goZeroTimeNs,
    endTime := goZeroTimeNs, frequency := -1, interval := 1, maxNum := -1 }

/-- `NewRecurring(config)`: run the switch over the entries, then the two
validation panics. -/
def NewRecurring (config : List (String × ConfigVal)) : Except String TimeSpec :=
  match configFold newRecurringInit config with
  | .error e => .error e
  | .ok r =>
    if timeIsZero r.startTime then
      .error "recurring scheduled action must have a start date"
    else if r.frequency < FREQ_SECOND ∨ FREQ_YEAR < r.frequency then
      .error "recurring scheduled action must have a frequency"
    else .ok r

/-- The last value bound to key `k` in the configuration (the one the loop
leaves in force), independent of `configFold`. -/
def lastVal (k : String) : List (String × ConfigVal) → Option ConfigVal
  | [] => none
  | (k', v) :: rest =>
    match lastVal k rest with
    | some w => some w
    | none => if k' = k then some v else none

/-- The last `time.Time` bound to `k`, or the default `d` when `k` is absent
(the ill-typed case never arises once the loop has succeeded). -/
def lastTimeOr (k : String) (d : Int) (cfg : List (String × ConfigVal)) : Int :=
  match lastVal k cfg with
  | some (.timeV t) => t
  | _ => d

/-- The last `int` bound to `k`, or the default `d`. -/
def lastIntOr (k : String) (d : Int) (cfg : List (String × ConfigVal)) : Int :=
  match lastVal k cfg with
  | some (.intV n) => n
  | _ => d

/-- The keys the `switch` in `NewRecurring` recognizes. -/
def recognizedKey (k : String) : Bool :=
  k == "starttime" || k == "frequency" || k == "interval" ||
    k == "endtime" || k == "maxnum"

/-! ## Registry and scheduled actions

The Go `ScheduledAction` holds a `TimeSpec`, an arbitrary callback, its
parameters and the command channel; callback and parameter values are
opaque to the scheduler, so they are type parameters here.  The package
globals — `schedule map[*ScheduledAction]bool` plus the channels — are
modelled as an explicit state: pointers become `Nat` identities into a
heap, and the trace of `CMD_CANCEL` sends performed is recorded so that a
function that sends no signal provably leaves it unchanged. -/

structure ScheduledAction (Fn Par : Type) where
  When : TimeSpec
  Action : Fn
  Parameters : List Par
  cmdChan : Nat

structure SchedulerState (Fn Par : Type) where
  /-- identities of the actions in the live set (`schedule`) -/
  schedule : List Nat
  /-- the actions themselves, by identity (pointer) -/
  heap : Nat → ScheduledAction Fn Par
  /-- channels on which a `CMD_CANCEL` has been sent -/
  cancelsSent : List Nat

/-- `ClearAll()`: `schedule = make(map[*ScheduledAction]bool)` — the live
set is replaced by an empty one and nothing else is touched. -/
def ClearAll {Fn Par : Type} (s : SchedulerState Fn Par) : SchedulerState Fn Par :=
  { s with schedule := [] }

/-! ## The cancellation protocol of `startTimer`/`stopTimer`

`startTimer` makes the per-action `cmdChan` with `make(chan command)` — an
unbuffered channel, so a send completes only by rendezvous with a
receiver.  The only receive is the `select` inside the goroutine's loop;
after the loop the goroutine calls `remove` and returns, never touching the
channel again.  `stopTimer` is a plain blocking send of `CMD_CANCEL`.
The joint behaviour of one goroutine and one `stopTimer` caller is the
transition system below. -/

/-- Where the goroutine of `startTimer` is: parked in its `select`
(`selecting`), between `select`s — firing the action or evaluating
`GetNextExec` (`running`) — or returned (`exited`). -/
inductive TaskPhase where
  | selecting
  | running
  | exited
deriving DecidableEq, Repr

/-- The `stopTimer` caller: still blocked in `sc.cmdChan <- CMD_CANCEL`
(`sending`), or the send has completed (`sent`). -/
inductive StopPhase where
  | sending
  | sent
deriving DecidableEq, Repr

structure CancelConfig where
  task : TaskPhase
  stop : StopPhase
deriving DecidableEq, Repr

/-- One step of the pair.  An unbuffered send completes only in
`rendezvous`, simultaneous with the goroutine's `select` taking the
`cmdChan` case (whereupon the goroutine breaks the loop and exits).  The
goroutine alone may take the timer case (`timerFire`), finish the callback
and re-enter the `select` (`loopAgain`), or see a zero next-execution time
and return (`loopExit`). -/
inductive CancelStep : CancelConfig → CancelConfig → Prop where
  | timerFire (s : StopPhase) :
      CancelStep ⟨.selecting, s⟩ ⟨.running, s⟩
  | loopAgain (s : StopPhase) :
      CancelStep ⟨.running, s⟩ ⟨.selecting, s⟩
  | loopExit (s : StopPhase) :
      CancelStep ⟨.running, s⟩ ⟨.exited, s⟩
  | rendezvous :
      CancelStep ⟨.selecting, .sending⟩ ⟨.exited, .sent⟩

/-! ## Concrete inputs used by the claims -/

/-- Recurring every 2 seconds from the Unix epoch (`starttime` = Unix 0,
`frequency` = `FREQ_SECOND`, `interval` = 2), exactly as `NewRecurring`
builds it. -/
def tsBug : TimeSpec :=
  { recurring := true, when := goZeroTimeNs, startTime := 0,
    endTime := goZeroTimeNs, frequency := FREQ_SECOND, interval := 2,
    maxNum := -1 }

/-- Recurring spec whose `endTime` equals the query instant and whose
`startTime` lies beyond it. -/
def tsEndB : TimeSpec :=
  { recurring := true, when := goZeroTimeNs, startTime := 3000000000,
    endTime := 2000000000, frequency := FREQ_SECOND, interval := 1,
    maxNum := -1 }

/-- Recurring spec with `endTime` strictly in the past of the query instant
and `startTime` in its future. -/
def tsEndW : TimeSpec :=
  { recurring := true, when := goZeroTimeNs, startTime := 5000000000,
    endTime := 1000000000, frequency := FREQ_SECOND, interval := 1,
    maxNum := -1 }

/-- Month-frequency spec whose `startTime` is in the future of the query
instant. -/
def tsMonthB : TimeSpec :=
  { recurring := true, when := goZeroTimeNs, startTime := 5000000000,
    endTime := goZeroTimeNs, frequency := FREQ_MONTH, interval := 1,
    maxNum := -1 }

/-- Month-frequency spec queried at its own `startTime`. -/
def tsMonthW : TimeSpec :=
  { recurring := true, when := goZeroTimeNs, startTime := 1000000000,
    endTime := goZeroTimeNs, frequency := FREQ_MONTH, interval := 1,
    maxNum := -1 }

/-- A configuration with `interval` explicitly 0. -/
def cfgInterval0 : List (String × ConfigVal) :=
  [("starttime", .timeV 1000000000), ("frequency", .intV 1),
   ("interval", .intV 0)]

/-- What `NewRecurring` builds from `cfgInterval0`. -/
def rInterval0 : TimeSpec :=
  { recurring := true, when := goZeroTimeNs, startTime := 1000000000,
    endTime := goZeroTimeNs, frequency := 1, interval := 0, maxNum := -1 }

/-- A configuration with a valid non-zero `starttime` and a valid
`frequency`, but a `maxnum` entry holding a `time.Time` instead of an
`int`. -/
def cfgBadTyped : List (String × ConfigVal) :=
  [("starttime", .timeV 1000000000), ("frequency", .intV 1),
   ("maxnum", .timeV 5)]

/-- A configuration with only `starttime` and `frequency`. -/
def cfgDefW : List (String × ConfigVal) :=
  [("starttime", .timeV 1000000000), ("frequency", .intV 1)]

/-- What `NewRecurring` builds from `cfgDefW`. -/
def rDefW : TimeSpec :=
  { recurring := true, when := goZeroTimeNs, startTime := 1000000000,
    endTime := goZeroTimeNs, frequency := 1, interval := 1, maxNum := -1 }

/-! ## Helper lemmas -/

/-- From `⟨.exited, .sending⟩` the pair can take no step at all: every rule
needs the goroutine in `selecting` or `running`. -/
theorem cancelStuck (c : CancelConfig)
    (h : Relation.ReflTransGen CancelStep ⟨.exited, .sending⟩ c) :
    c = ⟨.exited, .sending⟩ := by
  induction h with
  | refl => rfl
  | tail _ hbc ih => subst ih; cases hbc

theorem updEntry_startTime_of_ne (r : TimeSpec) (k : String) (v : ConfigVal)
    (h : k ≠ "starttime") : (updEntry r k v).startTime = r.startTime := by
  unfold updEntry
  split <;> simp_all

theorem updEntry_frequency_of_ne (r : TimeSpec) (k : String) (v : ConfigVal)
    (h : k ≠ "frequency") : (updEntry r k v).frequency = r.frequency := by
  unfold updEntry
  split <;> simp_all

theorem updEntry_interval_of_ne (r : TimeSpec) (k : String) (v : ConfigVal)
    (h : k ≠ "interval") : (updEntry r k v).interval = r.interval := by
  unfold updEntry
  split <;> simp_all

theorem keyWellTyped_starttime (v : ConfigVal)
    (h : keyWellTyped "starttime" v = true) : ∃ t, v = .timeV t := by
  cases v with
  | timeV t => exact ⟨t, rfl⟩
  | intV n => simp [keyWellTyped] at h

theorem keyWellTyped_frequency (v : ConfigVal)
    (h : keyWellTyped "frequency" v = true) : ∃ n, v = .intV n := by
  cases v with
  | timeV t => simp [keyWellTyped] at h
  | intV n => exact ⟨n, rfl⟩

theorem keyWellTyped_of_unrecognized (k : String) (v : ConfigVal)
    (h : recognizedKey k = false) : keyWellTyped k v = true := by
  simp only [recognizedKey, Bool.or_eq_false_iff, beq_eq_false_iff_ne, ne_eq] at h
  obtain ⟨⟨⟨⟨h1, h2⟩, h3⟩, h4⟩, h5⟩ := h
  unfold keyWellTyped
  split <;> simp_all

theorem updEntry_of_unrecognized (r : TimeSpec) (k : String) (v : ConfigVal)
    (h : recognizedKey k = false) : updEntry r k v = r := by
  simp only [recognizedKey, Bool.or_eq_false_iff, beq_eq_false_iff_ne, ne_eq] at h
  obtain ⟨⟨⟨⟨h1, h2⟩, h3⟩, h4⟩, h5⟩ := h
  unfold updEntry
  split <;> simp_all

theorem lastVal_mem (k : String) (v : ConfigVal)
    (cfg : List (String × ConfigVal)) (h : lastVal k cfg = some v) :
    (k, v) ∈ cfg := by
  induction cfg with
  | nil => simp [lastVal] at h
  | cons p rest ih =>
    obtain ⟨k', v'⟩ := p
    simp only [lastVal] at h
    cases hl : lastVal k rest with
    | some w =>
      rw [hl] at h
      have h' : some w = some v := h
      injection h' with h'
      subst h'
      exact List.mem_cons_of_mem _ (ih hl)
    | none =>
      rw [hl] at h
      have h' : (if k' = k then some v' else none) = some v := h
      by_cases hk : k' = k
      · rw [if_pos hk] at h'
        injection h' with h'
        subst hk
        subst h'
        exact List.mem_cons_self _ _
      · rw [if_neg hk] at h'
        cases h'

theorem lastVal_none (k : String) (cfg : List (String × ConfigVal))
    (h : ∀ p ∈ cfg, p.1 ≠ k) : lastVal k cfg = none := by
  induction cfg with
  | nil => rfl
  | cons p rest ih =>
    obtain ⟨k', v'⟩ := p
    simp only [lastVal]
    rw [ih fun q hq => h q (List.mem_cons_of_mem _ hq)]
    simp [h (k', v') (List.mem_cons_self _ _)]

theorem configFold_cons_ok (r : TimeSpec) (k : String) (v : ConfigVal)
    (rest : List (String × ConfigVal)) (hw : keyWellTyped k v = true) :
    configFold r ((k, v) :: rest) = configFold (updEntry r k v) rest := by
  simp [configFold, applyEntry, hw]

theorem configFold_cons_err (r : TimeSpec) (k : String) (v : ConfigVal)
    (rest : List (String × ConfigVal)) (hw : keyWellTyped k v = false) :
    configFold r ((k, v) :: rest) = .error "interface conversion panic" := by
  simp [configFold, applyEntry, hw]

theorem configFold_isOk (cfg : List (String × ConfigVal)) : ∀ r : TimeSpec,
    (∃ r', configFold r cfg = .ok r') ↔
      ∀ p ∈ cfg, keyWellTyped p.1 p.2 = true := by
  induction cfg with
  | nil => intro r; simp [configFold]
  | cons p rest ih =>
    intro r
    obtain ⟨k, v⟩ := p
    by_cases hw : keyWellTyped k v = true
    · rw [configFold_cons_ok r k v rest hw, ih (updEntry r k v)]
      simp [hw]
    · rw [configFold_cons_err r k v rest (by simp_all)]
      constructor
      · rintro ⟨r', hr'⟩; cases hr'
      · intro hall
        exact absurd (hall (k, v) (List.mem_cons_self _ _)) hw

theorem configFold_startTime (cfg : List (String × ConfigVal)) :
    ∀ r r' : TimeSpec, configFold r cfg = .ok r' →
      r'.startTime = lastTimeOr "starttime" r.startTime cfg := by
  induction cfg with
  | nil =>
    intro r r' h
    simp only [configFold] at h
    injection h with h
    subst h
    rfl
  | cons p rest ih =>
    intro r r' h
    obtain ⟨k, v⟩ := p
    by_cases hw : keyWellTyped k v = true
    · rw [configFold_cons_ok r k v rest hw] at h
      have hIH := ih (updEntry r k v) r' h
      have hall : ∀ p ∈ rest, keyWellTyped p.1 p.2 = true :=
        (configFold_isOk rest (updEntry r k v)).mp ⟨r', h⟩
      simp only [lastTimeOr, lastVal]
      cases hl : lastVal "starttime" rest with
      | some w =>
        cases w with
        | timeV t => rw [hIH]; simp [lastTimeOr, hl]
        | intV n =>
          have := hall _ (lastVal_mem _ _ rest hl)
          simp [keyWellTyped] at this
      | none =>
        by_cases hk : k = "starttime"
        · subst hk
          obtain ⟨t, rfl⟩ := keyWellTyped_starttime v hw
          rw [hIH]
          simp [lastTimeOr, hl, updEntry]
        · rw [hIH]
          simp [lastTimeOr, hl, hk, updEntry_startTime_of_ne r k v hk]
    · rw [configFold_cons_err r k v rest (by simp_all)] at h
      cases h

theorem configFold_frequency (cfg : List (String × ConfigVal)) :
    ∀ r r' : TimeSpec, configFold r cfg = .ok r' →
      r'.frequency = lastIntOr "frequency" r.frequency cfg := by
  induction cfg with
  | nil =>
    intro r r' h
    simp only [configFold] at h
    injection h with h
    subst h
    rfl
  | cons p rest ih =>
    intro r r' h
    obtain ⟨k, v⟩ := p
    by_cases hw : keyWellTyped k v = true
    · rw [configFold_cons_ok r k v rest hw] at h
      have hIH := ih (updEntry r k v) r' h
      have hall : ∀ p ∈ rest, keyWellTyped p.1 p.2 = true :=
        (configFold_isOk rest (updEntry r k v)).mp ⟨r', h⟩
      simp only [lastIntOr, lastVal]
      cases hl : lastVal "frequency" rest with
      | some w =>
        cases w with
        | intV n => rw [hIH]; simp [lastIntOr, hl]
        | timeV t =>
          have := hall _ (lastVal_mem _ _ rest hl)
          simp [keyWellTyped] at this
      | none =>
        by_cases hk : k = "frequency"
        · subst hk
          obtain ⟨n, rfl⟩ := keyWellTyped_frequency v hw
          rw [hIH]
          simp [lastIntOr, hl, updEntry]
        · rw [hIH]
          simp [lastIntOr, hl, hk, updEntry_frequency_of_ne r k v hk]
    · rw [configFold_cons_err r k v rest (by simp_all)] at h
      cases h

theorem configFold_interval (cfg : List (String × ConfigVal)) :
    ∀ r r' : TimeSpec, configFold r cfg = .ok r' →
      r'.interval = lastIntOr "interval" r.interval cfg := by
  induction cfg with
  | nil =>
    intro r r' h
    simp only [configFold] at h
    injection h with h
    subst h
    rfl
  | cons p rest ih =>
    intro r r' h
    obtain ⟨k, v⟩ := p
    by_cases hw : keyWellTyped k v = true
    · rw [configFold_cons_ok r k v rest hw] at h
      have hIH := ih (updEntry r k v) r' h
      have hall : ∀ p ∈ rest, keyWellTyped p.1 p.2 = true :=
        (configFold_isOk rest (updEntry r k v)).mp ⟨r', h⟩
      simp only [lastIntOr, lastVal]
      cases hl : lastVal "interval" rest with
      | some w =>
        cases w with
        | intV n => rw [hIH]; simp [lastIntOr, hl]
        | timeV t =>
          have := hall _ (lastVal_mem _ _ rest hl)
          simp [keyWellTyped] at this
      | none =>
        by_cases hk : k = "interval"
        · subst hk
          obtain ⟨n, rfl⟩ :=
            (by cases v with
              | timeV t => simp [keyWellTyped] at hw
              | intV n => exact ⟨n, rfl⟩ : ∃ n, v = .intV n)
          rw [hIH]
          simp [lastIntOr, hl, updEntry]
        · rw [hIH]
          simp [lastIntOr, hl, hk, updEntry_interval_of_ne r k v hk]
    · rw [configFold_cons_err r k v rest (by simp_all)] at h
      cases h

theorem configFold_filter (cfg : List (String × ConfigVal)) : ∀ r : TimeSpec,
    configFold r (cfg.filter fun p => recognizedKey p.1) = configFold r cfg := by
  induction cfg with
  | nil => intro r; rfl
  | cons p rest ih =>
    intro r
    obtain ⟨k, v⟩ := p
    by_cases hr : recognizedKey k = true
    · rw [List.filter_cons]
      simp only [hr, if_true]
      simp only [configFold]
      cases ha : applyEntry r k v with
      | ok r' => simp [ha, ih]
      | error e => simp [ha]
    · have hb : recognizedKey k = false := by simp_all
      rw [List.filter_cons]
      simp only [hb, Bool.false_eq_true, if_false]
      rw [configFold_cons_ok r k v rest (keyWellTyped_of_unrecognized k v hb),
        updEntry_of_unrecognized r k v hb]
      exact ih r

/-! ## Claim theorems -/

/-- C8: `ClearAll` empties the live set and nothing else: every action in
the heap keeps all its fields (`When`, `Action`, `Parameters`, `cmdChan`)
and no cancellation signal is sent. -/
theorem ClearAll_frame (Fn Par : Type) (s : SchedulerState Fn Par) :
    (ClearAll s).schedule = [] ∧ (ClearAll s).heap = s.heap ∧
      (ClearAll s).cancelsSent = s.cancelsSent :=
  ⟨rfl, rfl, rfl⟩

/-- C9: `maxNum` never influences `GetNextExec`: two specifications that
differ only in `maxNum` yield the same next-execution instant at every
`now`. -/
theorem GetNextExec_ignores_maxNum (ts : TimeSpec) (m now : Int) :
    TimeSpec.GetNextExec { ts with maxNum := m } now = ts.GetNextExec now :=
  rfl

/-- C6 (the code bug the claim contradicts): once the goroutine has exited
— reachable in one step while a `stopTimer` send is pending — the blocked
`stopTimer` caller can never complete its send on the unbuffered
`cmdChan`: `Stop` after natural termination deadlocks instead of being a
silent no-op. -/
theorem stopTimer_deadlock_after_exit :
    Relation.ReflTransGen CancelStep ⟨.running, .sending⟩ ⟨.exited, .sending⟩ ∧
      ∀ c, Relation.ReflTransGen CancelStep ⟨.exited, .sending⟩ c →
        c.stop = .sending :=
  ⟨Relation.ReflTransGen.single (CancelStep.loopExit _),
   fun c h => by rw [cancelStuck c h]⟩

/-- C1 (the code bug the claim contradicts): for the spec "every 2 seconds
from Unix 0" queried at Unix 5 (5000000000 ns), the code returns Unix 7,
although Unix 6 = startTime + 3·period is on the arithmetic progression
and strictly between now and the returned instant, and the returned
instant lies on the progression for no integer k: the `td :=
int(delta*time.Second) % period` remainder is not `elapsed mod period`. -/
theorem GetNextExec_misses_progression :
    tsBug.GetNextExec 5000000000 = some 7000000000 ∧
      tsBug.startTime + 3 * 2000000000 = 6000000000 ∧
      (5000000000 : Int) < 6000000000 ∧ (6000000000 : Int) < 7000000000 ∧
      ∀ k : Int, tsBug.startTime + k * 2000000000 ≠ 7000000000 := by
  refine ⟨by decide, by decide, by decide, by decide, ?_⟩
  intro k h
  simp only [tsBug] at h
  omega

/-- C2 (amended): a one-off specification returns the zero-time sentinel
exactly when `when` is strictly before `now`; otherwise — the boundary
`when = now` included — it returns `when`. -/
theorem GetNextExec_oneOff (w now : Int) :
    (NewOneOff w).GetNextExec now =
      if w < now then some goZeroTimeNs else some w := by
  simp [TimeSpec.GetNextExec, NewOneOff, timeBefore]

/-- C2 counterexample: at the boundary `when = now` (both Unix 1), the code
returns `when`, not the none sentinel the claim requires. -/
theorem oneOff_boundary_counterexample :
    (NewOneOff 1000000000).GetNextExec 1000000000 = some 1000000000 ∧
      (1000000000 : Int) ≠ goZeroTimeNs :=
  ⟨by decide, by decide⟩

/-- C3 (amended): for a recurring specification whose `endTime` is set and
strictly before `now`, `GetNextExec` returns the none sentinel — before
any other rule, in particular even when `startTime` is in the future. -/
theorem GetNextExec_endTime_past (ts : TimeSpec) (now : Int)
    (hrec : ts.recurring = true) (hset : timeIsZero ts.endTime = false)
    (hend : ts.endTime < now) :
    ts.GetNextExec now = some goZeroTimeNs := by
  simp [TimeSpec.GetNextExec, hrec, hset, timeBefore, hend]

/-- C3 witness: `endTime` = Unix 1 strictly before `now` = Unix 2 while
`startTime` = Unix 5 is in the future: the sentinel is returned. -/
theorem GetNextExec_endTime_past_witness :
    tsEndW.GetNextExec 2000000000 = some goZeroTimeNs :=
  GetNextExec_endTime_past tsEndW 2000000000 rfl (by decide) (by decide)

/-- C3 counterexample: with `endTime` exactly equal to `now` (Unix 2) and
`startTime` = Unix 3, the code does not return the none sentinel but
`startTime`: the termination check is strict (`Before`), not "at or
before". -/
theorem endTime_boundary_counterexample :
    tsEndB.GetNextExec 2000000000 = some 3000000000 ∧
      timeIsZero tsEndB.endTime = false ∧
      (3000000000 : Int) ≠ goZeroTimeNs :=
  ⟨by decide, by decide, by decide⟩

/-- C7 (amended): a recurring specification with frequency month or year
returns the none sentinel whenever `startTime` is at or before `now` (the
frequencies are never computed); with `startTime` still in the future the
earlier start-time rule answers first. -/
theorem GetNextExec_month_year (ts : TimeSpec) (now : Int)
    (hrec : ts.recurring = true)
    (hfreq : ts.frequency = FREQ_MONTH ∨ ts.frequency = FREQ_YEAR)
    (hstart : ts.startTime ≤ now) :
    ts.GetNextExec now = some goZeroTimeNs := by
  have hns : timeAfter ts.startTime now = false := by
    simp [timeAfter]; omega
  rcases hfreq with h | h <;>
    · simp only [TimeSpec.GetNextExec, hrec, if_true, hns, h,
        FREQ_SECOND, FREQ_MINUTE, FREQ_HOUR, FREQ_DAY, FREQ_WEEK,
        FREQ_MONTH, FREQ_YEAR]
      split <;> norm_num

/-- C7 witness: the month-frequency specification `tsMonthW` queried at its
own `startTime` yields the none sentinel. -/
theorem GetNextExec_month_year_witness :
    tsMonthW.GetNextExec 1000000000 = some goZeroTimeNs :=
  GetNextExec_month_year tsMonthW 1000000000 rfl (Or.inl rfl) (by decide)

/-- C7 counterexample: the month-frequency specification `tsMonthB`
(`startTime` = Unix 5) queried at Unix 1 returns `startTime`, not the none
sentinel the claim asserts for every instant. -/
theorem monthFreq_future_start_counterexample :
    tsMonthB.GetNextExec 1000000000 = some 5000000000 ∧
      (5000000000 : Int) ≠ goZeroTimeNs :=
  ⟨by decide, by decide⟩

/-- C4 (amended): a specification built from a configuration with no
`interval` entry has the default `interval` 1; a provided `interval` is
stored without validation (see the counterexample for 0). -/
theorem NewRecurring_default_interval (cfg : List (String × ConfigVal))
    (r : TimeSpec) (hok : NewRecurring cfg = .ok r)
    (hno : ∀ p ∈ cfg, p.1 ≠ "interval") : r.interval = 1 := by
  cases hfold : configFold newRecurringInit cfg with
  | error e => simp [NewRecurring, hfold] at hok
  | ok r0 =>
    have hunfold : NewRecurring cfg =
        (if timeIsZero r0.startTime then
          Except.error "recurring scheduled action must have a start date"
        else if r0.frequency < FREQ_SECOND ∨ FREQ_YEAR < r0.frequency then
          Except.error "recurring scheduled action must have a frequency"
        else Except.ok r0) := by
      simp [NewRecurring, hfold]
    rw [hunfold] at hok
    split at hok
    · cases hok
    · split at hok
      · cases hok
      · injection hok with hok
        subst hok
        have hi := configFold_interval cfg newRecurringInit r0 hfold
        rw [hi]
        unfold lastIntOr
        rw [lastVal_none "interval" cfg hno]
        rfl

/-- C4 witness: from a configuration carrying only `starttime` and
`frequency`, the constructed specification has `interval` 1. -/
theorem NewRecurring_default_interval_witness :
    NewRecurring cfgDefW = Except.ok rDefW ∧ rDefW.interval = 1 :=
  ⟨rfl, NewRecurring_default_interval cfgDefW rDefW rfl (by decide)⟩

/-- C4 counterexample: a configuration whose `interval` entry is 0 does
yield a constructed specification — `NewRecurring` never validates
`interval`, so the invariant `interval ≥ 1` fails. -/
theorem newRecurring_interval_zero_counterexample :
    NewRecurring cfgInterval0 = Except.ok rInterval0 ∧ rInterval0.interval = 0 :=
  ⟨rfl, rfl⟩

/-- C5 (amended): `NewRecurring` returns a specification exactly when every
recognized entry of the configuration is well-typed, the last `starttime`
is a non-zero instant and the last `frequency` is one of the seven
constants; otherwise it panics.  (The well-typedness condition is what the
claim misses: a wrongly-typed value of any recognized key — the
counterexample uses `maxnum` — panics the type assertion even with valid
`starttime` and `frequency`.) -/
theorem NewRecurring_ok_iff (cfg : List (String × ConfigVal)) :
    (∃ r, NewRecurring cfg = Except.ok r) ↔
      (∀ p ∈ cfg, keyWellTyped p.1 p.2 = true) ∧
        (∃ t, lastVal "starttime" cfg = some (.timeV t) ∧ t ≠ goZeroTimeNs) ∧
        (∃ f, lastVal "frequency" cfg = some (.intV f) ∧
          FREQ_SECOND ≤ f ∧ f ≤ FREQ_YEAR) := by
  constructor
  · rintro ⟨r, hok⟩
    cases hfold : configFold newRecurringInit cfg with
    | error e => simp [NewRecurring, hfold] at hok
    | ok r0 =>
      have hWT := (configFold_isOk cfg newRecurringInit).mp ⟨r0, hfold⟩
      have h1 : timeIsZero r0.startTime = false := by
        by_cases hb : timeIsZero r0.startTime = true
        · simp [NewRecurring, hfold, hb] at hok
        · simpa using hb
      have h2 : ¬(r0.frequency < FREQ_SECOND ∨ FREQ_YEAR < r0.frequency) := by
        intro hcon
        simp [NewRecurring, hfold, h1] at hok
        rw [if_pos hcon] at hok
        cases hok
      have hs := configFold_startTime cfg newRecurringInit r0 hfold
      have hf := configFold_frequency cfg newRecurringInit r0 hfold
      refine ⟨hWT, ?_, ?_⟩
      · cases hl : lastVal "starttime" cfg with
        | none =>
          have hz : r0.startTime = goZeroTimeNs := by
            rw [hs]; unfold lastTimeOr; rw [hl]; rfl
          rw [hz] at h1
          simp [timeIsZero] at h1
        | some w =>
          cases w with
          | intV n =>
            have := hWT _ (lastVal_mem _ _ cfg hl)
            simp [keyWellTyped] at this
          | timeV t =>
            refine ⟨t, rfl, ?_⟩
            have ht : r0.startTime = t := by
              rw [hs]; unfold lastTimeOr; rw [hl]
            intro hteq
            rw [ht, hteq] at h1
            simp [timeIsZero] at h1
      · cases hl : lastVal "frequency" cfg with
        | none =>
          have hz : r0.frequency = -1 := by
            rw [hf]; unfold lastIntOr; rw [hl]; rfl
          rw [hz] at h2
          simp [FREQ_SECOND, FREQ_YEAR] at h2
        | some w =>
          cases w with
          | timeV t =>
            have := hWT _ (lastVal_mem _ _ cfg hl)
            simp [keyWellTyped] at this
          | intV f =>
            have hfr : r0.frequency = f := by
              rw [hf]; unfold lastIntOr; rw [hl]
            rw [hfr] at h2
            simp only [FREQ_SECOND, FREQ_YEAR] at h2 ⊢
            exact ⟨f, rfl, by omega⟩
  · rintro ⟨hWT, ⟨t, hlt, hne⟩, ⟨f, hlf, hf1, hf2⟩⟩
    obtain ⟨r0, hfold⟩ := (configFold_isOk cfg newRecurringInit).mpr hWT
    have hst : r0.startTime = t := by
      rw [configFold_startTime cfg newRecurringInit r0 hfold]
      unfold lastTimeOr; rw [hlt]
    have hfr : r0.frequency = f := by
      rw [configFold_frequency cfg newRecurringInit r0 hfold]
      unfold lastIntOr; rw [hlf]
    have h1 : timeIsZero r0.startTime = false := by
      rw [hst]; simp [timeIsZero, hne]
    have h2 : ¬(r0.frequency < FREQ_SECOND ∨ FREQ_YEAR < r0.frequency) := by
      rw [hfr]
      simp only [FREQ_SECOND, FREQ_YEAR] at hf1 hf2 ⊢
      omega
    exact ⟨r0, by simp [NewRecurring, hfold, h1, h2]⟩

/-- C5 counterexample: `cfgBadTyped` provides a non-zero `starttime` and a
valid `frequency`, yet `NewRecurring` panics — its `maxnum` entry holds a
`time.Time`, so the `v.(int)` assertion fails. -/
theorem newRecurring_welltyped_counterexample :
    lastVal "starttime" cfgBadTyped = some (.timeV 1000000000) ∧
      (1000000000 : Int) ≠ goZeroTimeNs ∧
      lastVal "frequency" cfgBadTyped = some (.intV 1) ∧
      NewRecurring cfgBadTyped = Except.error "interface conversion panic" :=
  ⟨rfl, by decide, rfl, rfl⟩

/-- C10: entries with unrecognized keys (misspellings, the commented-out
`byday`/`byhours`/`byminute`, anything else) are silently ignored:
`NewRecurring` returns exactly what it returns on the configuration
restricted to the recognized keys. -/
theorem NewRecurring_ignores_unrecognized (cfg : List (String × ConfigVal)) :
    NewRecurring (cfg.filter fun p => recognizedKey p.1) = NewRecurring cfg := by
  unfold NewRecurring
  rw [configFold_filter]

end Gochronos
